import Mathlib

/-!
Shallow embedding of the diode_client RPC client (`rpc/client.go` plus the
`edge` response types) and proofs about its behaviour.  Byte strings are
modelled as lists of naturals, Go `uint64` arithmetic as naturals reduced
modulo `2^64` where wrap-around matters, fallible Go functions as
`Except`/`Option`-returning Lean functions, and Go runtime panics as `none` in
an `Option`-wrapped result.  Server interactions are modelled by oracle
records holding the responses the server would return; the embedded client
functions are deterministic functions of those oracles.
-/

namespace Diode

/-- Go byte slices (`[]byte`) are modelled as lists of naturals. -/
abbrev Bytes := List Nat

/-- 20-byte identities (`util.Address`). -/
abbrev Address := List Nat

/-- The all-zero address, Go `[20]byte\x7b\x7d`. -/
def zeroAddress : Address := List.replicate 20 0

/-- Error values produced by the embedded client functions.  Each constructor
stands for one of the Go error values or `fmt.Errorf` sites used by
`rpc/client.go`; `wrap` models `fmt.Errorf("...: %v", err)` wrapping. -/
inductive Err where
  | rpc (msg : Bytes)
  | wrongMerkleProof
  | emptyBNSresult
  | clientClosed
  | portOpenTimeout
  | backpressureFull
  | encodeFailed
  | fetchLen (got : Nat)
  | anchorMismatch (lvbn : Nat)
  | parentMismatch
  | sigInvalid
  | noProgress
  | leafMissing
  | wrap (tag : String) (e : Err)
  deriving DecidableEq

/-- Go `uint64` truncation. -/
def u64 (n : Nat) : Nat := n % 2 ^ 64

/-- Go `uint64` subtraction `a - b` with wrap-around. -/
def u64sub (a b : Nat) : Nat := u64 (a + 2 ^ 64 - u64 b)

/-- Go's `int64(n)` view of an unsigned value (`big.Int.Int64` on a
non-negative integer takes the low 64 bits, interpreted in two's
complement). -/
def toInt64 (n : Nat) : Int :=
  if n % 2 ^ 64 < 2 ^ 63 then ((n % 2 ^ 64 : Nat) : Int)
  else ((n % 2 ^ 64 : Nat) : Int) - 2 ^ 64

/-- `big.Int.SetBytes`: big-endian interpretation of a byte string. -/
def natFromBytes (b : Bytes) : Nat := b.foldl (fun acc d => acc * 256 + d) 0

/-- `util.PaddingBytesPrefix(rawKey, 0, 32)`, used by `GetAccountValue` to
"pad the key to 32 bytes" (zero bytes are prepended). -/
def padKey32 (k : Bytes) : Bytes :=
  if k.length < 32 then List.replicate (32 - k.length) 0 ++ k else k

/-- `edge.MerkleTree` attached to an account-value response.  The tree
internals are kept abstract: its root hash (`RootHash`), its slot index
(`Modulo`) and its leaf lookup (`Get`). -/
structure MerkleTree where
  rootHash : Bytes
  modulo : Nat
  leaf : Bytes → Except Err Bytes

/-- `edge.AccountValue`: carries the Merkle proof tree of the response
(`AccountRoot()` returns `accountTree.RootHash`, `AccountTree()` returns
`accountTree`). -/
structure AccountValue where
  accountTree : MerkleTree

/-- `edge.AccountRoots`: the list of account roots fetched with
`getaccountroots`. -/
structure AccountRoots where
  accountRoots : List Bytes

/-- `edge.AccountRoots.Find`: index of the first equal root, `-1` when the
root does not occur. -/
def AccountRoots.find (ar : AccountRoots) (accountRoot : Bytes) : Int :=
  match ar.accountRoots.findIdx? (fun v => v == accountRoot) with
  | some i => (i : Int)
  | none => -1

/-- The package-level `NullData` sentinel returned with every error of
`GetAccountValueRaw`; its contents are immaterial to the claims. -/
def NullData : Bytes := []

/-- Oracle for the account-read RPCs: `lastValid` is the client's
last-valid-block anchor, `accountValue bn addr key` is the server's
(`getaccountvalue`) response and `accountRoots bn addr` the
(`getaccountroots`) response. -/
structure AVOracle where
  lastValid : Nat × Bytes
  accountValue : Nat → Address → Bytes → Except Err AccountValue
  accountRoots : Nat → Address → Except Err AccountRoots

/-- The `if blockNumber <= 0` fallback to the last valid block number used by
the account-read functions (`blockNumber` is a Go `uint64`, so `<= 0` means
`= 0`). -/
def resolveBn (o : AVOracle) (blockNumber : Nat) : Nat :=
  if blockNumber = 0 then o.lastValid.1 else blockNumber

/-- `Client.GetAccountValue`: resolves the block number, pads the key to 32
bytes and calls `getaccountvalue`. -/
def GetAccountValue (o : AVOracle) (blockNumber : Nat) (account : Address)
    (rawKey : Bytes) : Except Err AccountValue :=
  o.accountValue (resolveBn o blockNumber) account (padKey32 rawKey)

/-- `Client.GetAccountRoots`: resolves the block number and calls
`getaccountroots`. -/
def GetAccountRoots (o : AVOracle) (blockNumber : Nat) (account : Address) :
    Except Err AccountRoots :=
  o.accountRoots (resolveBn o blockNumber) account

/-- `Client.GetAccountValueRaw`: fetches the account value and the account
roots, verifies that the index of the proof's computed root among the fetched
roots equals the proof tree's `Modulo`, and on success reads the leaf for the
(unpadded) key.  Every error is returned together with `NullData`.  The Go
function performs no writes to client state; the embedding is accordingly a
pure function of the oracle. -/
def GetAccountValueRaw (o : AVOracle) (blockNumber : Nat) (addr : Address)
    (key : Bytes) : Bytes × Option Err :=
  let bn := resolveBn o blockNumber
  match GetAccountValue o bn addr key with
  | .error e => (NullData, some e)
  | .ok acv =>
    match GetAccountRoots o bn addr with
    | .error e => (NullData, some e)
    | .ok acr =>
      let acvTree := acv.accountTree
      if acr.find acv.accountTree.rootHash ≠ toInt64 acvTree.modulo then
        (NullData, some .wrongMerkleProof)
      else
        match acvTree.leaf key with
        | .error e => (NullData, some e)
        | .ok raw => (raw, none)

/-- State-passing wrapper for `GetAccountValueRaw`: the Go function contains
no assignment to any field of the client, so the embedding threads an
arbitrary client state through unchanged. -/
def GetAccountValueRawS {α : Type} (o : AVOracle) (st : α) (blockNumber : Nat)
    (addr : Address) (key : Bytes) : (Bytes × Option Err) × α :=
  (GetAccountValueRaw o blockNumber addr key, st)

/-- `Client.GetAccountValueInt`: a raw read converted with
`big.Int.SetBytes`; any error yields the zero integer. -/
def GetAccountValueInt (o : AVOracle) (blockNumber : Nat) (addr : Address)
    (key : Bytes) : Nat :=
  match GetAccountValueRaw o blockNumber addr key with
  | (_, some _) => 0
  | (raw, none) => natFromBytes raw

/-- Modelled from the spec: the `contract` package's storage-slot locations
(`BNSEntryLocation` and friends) are Keccak-derived keys of the name (a Go
string, i.e. a byte string); the embedding only needs them to be concrete and
pairwise distinct, so each location kind is tagged with a distinct first
element.  `contract.BNSEntryLocation(name)`: -/
def bnsEntryLocation (name : Bytes) : Bytes := 1 :: name

/-- Modelled from the spec: `contract.BNSDestinationArrayLocation(name)`. -/
def bnsDestinationArrayLocation (name : Bytes) : Bytes := 2 :: name

/-- Modelled from the spec:
`contract.BNSDestinationArrayElementLocation(name, i)`. -/
def bnsDestinationArrayElementLocation (name : Bytes) (i : Nat) : Bytes :=
  3 :: i :: name

/-- Modelled from the spec: `contract.BNSReverseEntryLocation(addr)`. -/
def bnsReverseEntryLocation (a : Address) : Bytes := 4 :: a

/-- Modelled from the spec: the BNS registry contract address
(`contract.BNSAddr`); its value is immaterial to the claims. -/
def bnsAddr : Address := List.replicate 20 0

/-- `copy(address[:], raw[12:])` on a fresh zeroed 20-byte array: Go panics
when the slice has fewer than 12 bytes (modelled as `none`), otherwise the
first `min 20 (raw.length - 12)` bytes after the prefix are copied and the
rest of the address stays zero. -/
def addrFromSlot (raw : Bytes) : Option Address :=
  if raw.length < 12 then none
  else
    let a := (raw.drop 12).take 20
    some (a ++ List.replicate (20 - a.length) 0)

/-- The `intSize == 0` fallback branch of `Client.ResolveBNS` for old-style
single-address entries: read the entry slot, take its last 20 bytes, reject
the zero address. -/
def resolveBNSFallback (o : AVOracle) (name : Bytes) :
    Option (Except Err (List Address)) :=
  match GetAccountValueRaw o 0 bnsAddr (bnsEntryLocation name) with
  | (_, some e) => some (.error e)
  | (raw, none) =>
    match addrFromSlot raw with
    | none => none
    | some a =>
      if a = zeroAddress then some (.error .emptyBNSresult) else some (.ok [a])

/-- The element loop of `Client.ResolveBNS`: element reads that fail are
logged and skipped (`continue`); successful reads append the slot's last 20
bytes.  `none` propagates a Go panic from the address copy. -/
def bnsLoop (o : AVOracle) (name : Bytes) (acc : List Address) :
    List Nat → Option (List Address)
  | [] => some acc
  | i :: is =>
    match GetAccountValueRaw o 0 bnsAddr
        (bnsDestinationArrayElementLocation name i) with
    | (_, some _) => bnsLoop o name acc is
    | (raw, none) =>
      match addrFromSlot raw with
      | none => none
      | some a => bnsLoop o name (acc ++ [a]) is

/-- `Client.ResolveBNS`: reads the destination-array length, zeroes it when
the `int64` view exceeds 128 (falling back to the single-entry branch), and
otherwise collects the element addresses in index order, rejecting an empty
result. -/
def ResolveBNS (o : AVOracle) (name : Bytes) :
    Option (Except Err (List Address)) :=
  let size := GetAccountValueInt o 0 bnsAddr (bnsDestinationArrayLocation name)
  let intSize0 := toInt64 size
  let intSize := if 128 < intSize0 then 0 else intSize0
  if intSize = 0 then resolveBNSFallback o name
  else
    match bnsLoop o name [] (List.range intSize.toNat) with
    | none => none
    | some addrs =>
      if addrs = [] then some (.error .emptyBNSresult) else some (.ok addrs)

/-- `binary.BigEndian.Uint16` of (the first two bytes of) a byte string. -/
def bigEndian16 (b : Bytes) : Nat :=
  match b with
  | b0 :: b1 :: _ => b0 * 256 + b1
  | _ => 0

/-- The slice bound `ResolveReverseBNS` applies to the raw value: half the
big-endian length tag when the tag is even, 30 otherwise. -/
def reverseBNSBound (raw : Bytes) : Nat :=
  if bigEndian16 (raw.drop (raw.length - 2)) % 2 = 0 then
    bigEndian16 (raw.drop (raw.length - 2)) / 2
  else 30

/-- `Client.ResolveReverseBNS`: reads the reverse-entry slot, takes the last
two bytes of the value as a big-endian length tag, and slices the value to
`size/2` (even tag) or 30 bytes (odd tag).  `raw[len(raw)-2:]` panics when the
value is shorter than 2 bytes and `raw[:k]` panics when `k` exceeds the
value's length (the slice capacity is modelled as its length); both panics are
modelled as `none`. -/
def ResolveReverseBNS (o : AVOracle) (addr : Address) :
    Option (Except Err Bytes) :=
  match GetAccountValueRaw o 0 bnsAddr (bnsReverseEntryLocation addr) with
  | (_, some e) => some (.error e)
  | (raw, none) =>
    if raw.length < 2 then none
    else
      let size := bigEndian16 (raw.drop (raw.length - 2))
      if size % 2 = 0 then
        if size / 2 ≤ raw.length then some (.ok (raw.take (size / 2))) else none
      else
        if 30 ≤ raw.length then some (.ok (raw.take 30)) else none

/-- `edge.PortOpen` response payload; only its presence matters to the
claims. -/
structure EPortOpen where
  requestId : Nat
  ref : Bytes
  deriving DecidableEq

/-- `Client.PortOpen`: calls the `portopen` RPC (the oracle argument is the
call's outcome; a Go error is its `Error()` string, modelled as the byte
string the server sent).  An error whose message is exactly 4 bytes long is
replaced by `errPortOpenTimeout`; a response that is not an `edge.PortOpen`
yields `(nil, nil)`. -/
def PortOpen (resp : Except Bytes (Option EPortOpen)) :
    Option EPortOpen × Option Err :=
  match resp with
  | .error msg =>
    (none, some (if msg.length = 4 then .portOpenTimeout else .rpc msg))
  | .ok x => (x, none)

/-- The byte counters of the secure channel (`SSL.totalBytes`,
`SSL.totalConnections`) that `submitTicket` resynchronises. -/
structure ChanState where
  totalBytes : Nat
  totalConnections : Nat
  deriving DecidableEq

/-- `edge`'s ticket error codes (`ErrTicketTooLow`, `ErrTicketTooOld`, or
neither). -/
inductive TicketCode where
  | ok
  | tooLow
  | tooOld
  deriving DecidableEq

/-- The previous ticket returned inside a server's ticket response.
`sigValid` is the outcome of `ValidateDeviceSig` on the ticket as received
(after the server id and fleet address are filled in); `sigValidForced` is
the outcome after `util.DecodeForce` is applied to its `LocalAddr`. -/
structure LastTicket where
  totalBytes : Nat
  totalConnections : Nat
  code : TicketCode
  sigValid : Bool
  sigValidForced : Bool
  deriving DecidableEq

/-- Tag of `fmt.Errorf("failed to submit ticket: %v", err)`. -/
def failedSubmitMsg : String := "failed to submit ticket"

/-- Tag of `fmt.Errorf("failed to re-submit ticket: %v", err)`. -/
def failedResubmitMsg : String := "failed to re-submit ticket"

/-- Oracle for `submitTicket`: the `ticket` RPC outcome (`none` inside `ok`
models a response that is not an `edge.DeviceTicket`) and the behaviour of
the recursive `SubmitNewTicket` re-submission, as a function of the channel
counters it starts from. -/
structure TicketOracle where
  resp : Except Err (Option LastTicket)
  resubmit : ChanState → Option Err × ChanState

/-- Result of `submitTicket`: the Go error (`none` is `nil`), the channel
counters afterwards, and how many times `SubmitNewTicket` was invoked to
re-submit. -/
structure SubmitOutcome where
  result : Option Err
  state : ChanState
  resubmits : Nat
  deriving DecidableEq

/-- `Client.submitTicket`: on `TicketTooLow` with a device signature that
validates (directly, or after force-decoding `LocalAddr`), the counters are
set to the returned ticket's `TotalBytes + 1024` and `TotalConnections + 1`
and one re-submission is made; a ticket whose signature never validates is
logged as fake and ignored; `TicketTooOld` is only logged. -/
def submitTicket (o : TicketOracle) (st : ChanState) : SubmitOutcome :=
  match o.resp with
  | .error e => ⟨some (.wrap failedSubmitMsg e), st, 0⟩
  | .ok none => ⟨none, st, 0⟩
  | .ok (some t) =>
    if t.code = .tooLow then
      let valid := if t.sigValid then t.sigValid else t.sigValidForced
      if valid then
        let st1 : ChanState := ⟨t.totalBytes + 1024, t.totalConnections + 1⟩
        match o.resubmit st1 with
        | (some e, st2) => ⟨some (.wrap failedResubmitMsg e), st2, 1⟩
        | (none, st2) => ⟨none, st2, 1⟩
      else ⟨none, st, 0⟩
    else if t.code = .tooOld then ⟨none, st, 0⟩
    else ⟨none, st, 0⟩

/-- `ticketBound` constant from `rpc/client.go`. -/
def ticketBound : Nat := 4194304

/-- The secure channel's counters consulted by `CheckTicket`
(`SSL.TotalBytes()` and `SSL.Counter()`). -/
structure SSLState where
  totalBytes : Nat
  counter : Nat
  deriving DecidableEq

/-- Oracle for `CheckTicket`: what `SubmitNewTicket` would do from a given
channel state. -/
structure CheckOracle where
  submitNewTicket : SSLState → Option Err × SSLState

/-- Result of `CheckTicket`: the Go error, the channel state afterwards, and
whether a ticket submission was triggered. -/
structure CheckOutcome where
  result : Option Err
  state : SSLState
  submitted : Bool
  deriving DecidableEq

/-- `Client.CheckTicket`: submits a new ticket exactly when
`TotalBytes() > Counter() + ticketBound`. -/
def CheckTicket (o : CheckOracle) (st : SSLState) : CheckOutcome :=
  let checked := decide (st.totalBytes > st.counter + ticketBound)
  if checked then
    let r := o.submitNewTicket st
    ⟨r.1, r.2, true⟩
  else ⟨none, st, false⟩

/-- `callQueueSize` constant from `rpc/client.go`. -/
def callQueueSize : Nat := 1024

/-- A `Call` as far as the claims need it: request id and method (a Go
string, modelled as bytes). -/
structure RpcCall where
  id : Nat
  method : Bytes
  deriving DecidableEq

/-- The client state touched by `insertCall` and `Close`: the `isClosed`
flag and the call manager's queue of in-flight calls. -/
structure RpcState where
  isClosed : Bool
  cm : List RpcCall
  deriving DecidableEq

/-- Modelled from the spec: the call manager is a bounded queue of up to
`callQueueSize` in-flight calls; `Insert` fails with the backpressure error
when the queue is at capacity (`callManager` lives outside `rpc/client.go`). -/
def cmInsert (cm : List RpcCall) (c : RpcCall) : Except Err (List RpcCall) :=
  if callQueueSize ≤ cm.length then .error .backpressureFull
  else .ok (cm ++ [c])

/-- `Client.insertCall`: inside the actor, a closed client returns
`errClientClosed` without inserting; otherwise the call is handed to the call
manager. -/
def insertCall (st : RpcState) (c : RpcCall) : Option Err × RpcState :=
  if st.isClosed then (some .clientClosed, st)
  else
    match cmInsert st.cm c with
    | .error e => (some e, st)
    | .ok cm1 => (none, { st with cm := cm1 })

/-- `Client.CastContext`: builds the request message (the oracle argument is
the outcome of `edge.NewMessage`) and inserts the call; the built call is
returned even when insertion fails. -/
def CastContext (enc : Except Err RpcCall) (st : RpcState) :
    (Option RpcCall × Option Err) × RpcState :=
  match enc with
  | .error e => ((none, some e), st)
  | .ok c =>
    match insertCall st c with
    | (some e, st1) => ((some c, some e), st1)
    | (none, st1) => ((some c, none), st1)

/-- `Client.RespondContext`: builds the response message (the oracle argument
is the outcome of `edge.NewResponseMessage`) and inserts the call. -/
def RespondContext (enc : Except Err RpcCall) (st : RpcState) :
    (Option RpcCall × Option Err) × RpcState :=
  match enc with
  | .error e => ((none, some e), st)
  | .ok c =>
    match insertCall st c with
    | (some e, st1) => ((some c, some e), st1)
    | (none, st1) => ((some c, none), st1)

/-- `Client.CallContext`: casts the call and, when the cast succeeded, awaits
the response (the `wait` oracle argument is the outcome of `waitResponse`,
with an abstract payload). -/
def CallContext (enc : Except Err RpcCall) (wait : Except Err Nat)
    (st : RpcState) : (Option Nat × Option Err) × RpcState :=
  match CastContext enc st with
  | ((_, some e), st1) => ((none, some e), st1)
  | ((_, none), st1) =>
    match wait with
    | .error e => ((none, some e), st1)
    | .ok r => ((some r, none), st1)

/-- `Client.Close`: a first close sets `isClosed` and removes the in-flight
calls (`cm.RemoveCalls`); a second close is a no-op. -/
def Close (st : RpcState) : RpcState :=
  if st.isClosed then st else { isClosed := true, cm := [] }

/-- `windowSize` (W) of the BlockQuick window. -/
def windowSize : Nat := 100

/-- `confirmationSize` (C) of the BlockQuick window. -/
def confirmationSize : Nat := 6

/-- Modelled from the spec: a `blockquick.BlockHeader` exposes its number, a
deterministic hash commitment, its parent hash and the validity of its miner
signature; hashes are abstracted to naturals and the hash and signature
verdicts are carried as fields. -/
structure BHeader where
  number : Nat
  hash : Nat
  parent : Nat
  sigValid : Bool
  deriving DecidableEq

/-- Placeholder header for (in-bounds) list indexing. -/
def defaultHeader : BHeader := ⟨0, 0, 0, false⟩

/-- Modelled from the spec: the operations of the `blockquick` package used
by `validateNetwork` (`New`, `AddBlock` with `slide = true`, and `Last`,
returning number and hash), kept abstract over the window representation. -/
structure WindowOps (W : Type) where
  newWindow : List BHeader → Except Err W
  addBlock : W → BHeader → Except Err W
  last : W → Nat × Nat

/-- The persistent and in-memory state `validateNetwork` touches: the two
anchor records of the on-disk store, and the client's block window. -/
structure VNState (W : Type) where
  dbLvbn : Option Nat
  dbLvbh : Option Nat
  bq : Option W

/-- Built-in default anchor block number; its value is immaterial. -/
def defaultLvbn : Nat := 0

/-- Built-in default anchor block hash; its value is immaterial. -/
def defaultLvbh : Nat := 0

/-- Modelled from the spec: `restoreLastValid` returns the persisted anchor,
falling back to the built-in default when a record is missing. -/
def restoreLastValid {W : Type} (st : VNState W) : Nat × Nat :=
  match st.dbLvbn, st.dbLvbh with
  | some n, some h => (n, h)
  | _, _ => (defaultLvbn, defaultLvbh)

/-- Oracle for `validateNetwork`: the responses to
`GetBlockHeadersUnsafe(lvbn - W + 1, lvbn)`, `GetBlockPeak` and
`GetBlockquick(lvbn, W + C + 1)`, plus the window operations. -/
structure VNOracle (W : Type) where
  headers : Except Err (List BHeader)
  peak : Except Err Nat
  blocks : Except Err (List BHeader)
  ops : WindowOps W

/-- One step of the backwards chain check: header `i` must hash to header
`i+1`'s parent and carry a valid signature. -/
def chainStepOk (hs : List BHeader) (i : Nat) : Option Err :=
  if (hs.getD i defaultHeader).hash ≠ (hs.getD (i + 1) defaultHeader).parent then
    some .parentMismatch
  else if (hs.getD i defaultHeader).sigValid = false then some .sigInvalid
  else none

/-- The `for i := windowSize - 2; i >= 0; i--` loop of `validateNetwork`:
`chainCheckDown hs (k + 1)` checks indices `k, k - 1, ..., 0` in that order. -/
def chainCheckDown (hs : List BHeader) : Nat → Option Err
  | 0 => none
  | i + 1 =>
    match chainStepOk hs i with
    | some e => some e
    | none => chainCheckDown hs i

/-- The full chain check over a fetched window. -/
def chainCheck (hs : List BHeader) : Option Err :=
  chainCheckDown hs (windowSize - 1)

/-- The block-adding loop of `validateNetwork`: blocks arrive ordered by
number, so the loop breaks at the first block numbered above `blockNumMax`;
every earlier block is added, and an `AddBlock` error aborts the pass. -/
def addLoop {W : Type} (ops : WindowOps W) (w : W) :
    List BHeader → Nat → Except Err W
  | [], _ => .ok w
  | b :: bs, mx =>
    if b.number > mx then .ok w
    else
      match ops.addBlock w b with
      | .error e => .error e
      | .ok w1 => addLoop ops w1 bs mx

/-- `Client.validateNetwork`: restore the anchor, fetch and check the anchor
window (deleting the stored block-number record and failing when the tail
hash mismatches), verify the chain of previous blocks, then fetch the peak
and candidate blocks, add them up to `peak - C + 1` (Go `uint64`
arithmetic), fail with the no-progress error when the window did not move
although `peak - W > lvbn`, and otherwise install the window and persist the
new anchor. -/
def validateNetwork {W : Type} (o : VNOracle W) (st : VNState W) :
    Except Err Unit × VNState W :=
  let lvbn := (restoreLastValid st).1
  let lvbh := (restoreLastValid st).2
  match o.headers with
  | .error e => (.error e, st)
  | .ok hs =>
    if hs.length ≠ windowSize then (.error (.fetchLen hs.length), st)
    else if (hs.getD (windowSize - 1) defaultHeader).hash ≠ lvbh then
      (.error (.anchorMismatch lvbn), { st with dbLvbn := none })
    else
      match chainCheck hs with
      | some e => (.error e, st)
      | none =>
        match o.peak with
        | .error e => (.error e, st)
        | .ok peak =>
          let blockNumMax := u64 (u64sub peak confirmationSize + 1)
          match o.blocks with
          | .error e => (.error e, st)
          | .ok blks =>
            match o.ops.newWindow hs with
            | .error e => (.error e, st)
            | .ok win0 =>
              match addLoop o.ops win0 blks blockNumMax with
              | .error e => (.error e, st)
              | .ok win =>
                if (o.ops.last win).1 = lvbn ∧ u64sub peak windowSize > lvbn then
                  (.error .noProgress, st)
                else
                  (.ok (), { dbLvbn := some (o.ops.last win).1,
                             dbLvbh := some (o.ops.last win).2,
                             bq := some win })

/-- Reference fold: adding a list of blocks one by one, stopping at the
first `AddBlock` error.  Used to state what the breaking loop of
`validateNetwork` adds. -/
def foldAdd {W : Type} (ops : WindowOps W) : W → List BHeader → Except Err W
  | w, [] => .ok w
  | w, b :: bs =>
    match ops.addBlock w b with
    | .error e => .error e
    | .ok w1 => foldAdd ops w1 bs

/-- The `strings.Contains(err.Error(), "sent reference block does not match")`
test of `initialize`, on the embedded error values. -/
def isAnchorMismatch : Err → Bool
  | .anchorMismatch _ => true
  | _ => false

/-- The network-validation phase of `Client.initialize`: one validation pass,
retried exactly once when it failed with the anchor-mismatch error; the
retry's outcome is returned as is. -/
def initValidate {W : Type} (o1 o2 : VNOracle W) (st : VNState W) :
    Except Err Unit × VNState W :=
  let r := validateNetwork o1 st
  match r.1 with
  | .ok _ => r
  | .error e => if isAnchorMismatch e then validateNetwork o2 r.2 else r

/-- Concrete account-read oracle whose proof root occurs at index `Modulo`
of the fetched roots (witness data). -/
def avOracleMatch : AVOracle :=
  ⟨(5, []), fun _ _ _ => .ok ⟨⟨[9], 0, fun _ => .ok [7]⟩⟩, fun _ _ => .ok ⟨[[9]]⟩⟩

/-- Concrete account-read oracle whose proof root occurs at no index of the
fetched roots (witness data). -/
def avOracleMismatch : AVOracle :=
  ⟨(5, []), fun _ _ _ => .ok ⟨⟨[9], 0, fun _ => .ok [7]⟩⟩, fun _ _ => .ok ⟨[[8]]⟩⟩

/-- A concrete BNS name, the bytes of the string used by the spec's S5
scenario (witness data). -/
def c7name : Bytes := [112, 105]

/-- Element slot 0 of the witness BNS array: 12 zero bytes then 20 bytes of
`0xAA`. -/
def c7elem0 : Bytes := List.replicate 12 0 ++ List.replicate 20 170

/-- Element slot 1 of the witness BNS array: 12 zero bytes then 20 bytes of
`0xBB`. -/
def c7elem1 : Bytes := List.replicate 12 0 ++ List.replicate 20 187

/-- Storage table of the witness BNS oracle: array length 2 with the two
element slots above. -/
def c7table (k : Bytes) : Bytes :=
  if k = bnsDestinationArrayLocation c7name then [2]
  else if k = bnsDestinationArrayElementLocation c7name 0 then c7elem0
  else if k = bnsDestinationArrayElementLocation c7name 1 then c7elem1
  else List.replicate 32 0

/-- Witness oracle resolving the name to a two-element destination array. -/
def c7oracle : AVOracle :=
  ⟨(1, []), fun _ _ _ => .ok ⟨⟨[9], 0, fun kk => .ok (c7table kk)⟩⟩,
    fun _ _ => .ok ⟨[[9]]⟩⟩

/-- Witness oracle whose destination-array length slot reads 200. -/
def c7oracleBig : AVOracle :=
  ⟨(1, []), fun _ _ _ => .ok ⟨⟨[9], 0, fun _ => .ok [200]⟩⟩,
    fun _ _ => .ok ⟨[[9]]⟩⟩

/-- Witness oracle whose reverse-BNS slot holds a single byte (shorter than
the 2-byte length tag). -/
def c10oracleShort : AVOracle :=
  ⟨(1, []), fun _ _ _ => .ok ⟨⟨[9], 0, fun _ => .ok [1]⟩⟩, fun _ _ => .ok ⟨[[9]]⟩⟩

/-- Witness oracle whose reverse-BNS slot holds `[97, 98, 0, 4]`: an even
length tag 4, so the result is the first two bytes. -/
def c10oracleEven : AVOracle :=
  ⟨(1, []), fun _ _ _ => .ok ⟨⟨[9], 0, fun _ => .ok [97, 98, 0, 4]⟩⟩,
    fun _ _ => .ok ⟨[[9]]⟩⟩

/-- Witness window operations over a unit window type. -/
def unitOps : WindowOps Unit :=
  ⟨fun _ => .ok (), fun _ _ => .ok (), fun _ => (0, 0)⟩

/-- Witness window operations counting added blocks; `last` reports the
count plus seven, with hash nine. -/
def countOps : WindowOps Nat :=
  ⟨fun _ => .ok 0, fun w _ => .ok (w + 1), fun w => (w + 7, 9)⟩

/-- A window of 100 identical self-parenting headers hashing to 4 (witness
data for the anchor-mismatch pass). -/
def c2headers : List BHeader := List.replicate 100 ⟨1, 4, 4, true⟩

/-- Witness oracle whose anchor window tail hashes to 4 while the stored
anchor hash is 5. -/
def c2oracle : VNOracle Unit := ⟨.ok c2headers, .ok 0, .ok [], unitOps⟩

/-- Witness state storing anchor `(1, 5)`. -/
def c2state : VNState Unit := ⟨some 1, some 5, none⟩

/-- A window of 100 identical self-parenting headers hashing to 5 (witness
data for the progress pass). -/
def c3headers : List BHeader := List.replicate 100 ⟨1, 5, 5, true⟩

/-- Witness oracle for the progress pass: matching anchor window, peak 120,
one candidate block. -/
def c3oracle : VNOracle Nat :=
  ⟨.ok c3headers, .ok 120, .ok [⟨2, 0, 0, true⟩], countOps⟩

/-- Witness state storing anchor `(1, 5)` over the counting window. -/
def c3state : VNState Nat := ⟨some 1, some 5, none⟩

/-- Witness previous ticket: `TicketTooLow` with a directly valid device
signature, counters `(5000, 7)`. -/
def c4ticket : LastTicket := ⟨5000, 7, .tooLow, true, false⟩

/-- Witness ticket oracle: the server returns `c4ticket` and the
re-submission succeeds without further state change. -/
def c4oracle : TicketOracle := ⟨.ok (some c4ticket), fun s => (none, s)⟩

/-- Claim C1: when the index of the proof's computed account root among the
fetched account roots differs from the proof tree's `Modulo`,
`GetAccountValueRaw` returns the wrong-merkle-proof error together with
`NullData` and leaves any threaded client state unchanged; when they agree it
returns the leaf bytes the proof tree yields for the given key. -/
theorem getAccountValueRaw_merkle_check (o : AVOracle) (bn : Nat)
    (addr : Address) (key : Bytes) (acv : AccountValue) (acr : AccountRoots)
    (hv : GetAccountValue o (resolveBn o bn) addr key = .ok acv)
    (hr : GetAccountRoots o (resolveBn o bn) addr = .ok acr) :
    (acr.find acv.accountTree.rootHash ≠ toInt64 acv.accountTree.modulo →
      GetAccountValueRaw o bn addr key = (NullData, some Err.wrongMerkleProof) ∧
      ∀ (α : Type) (st : α), (GetAccountValueRawS o st bn addr key).2 = st) ∧
    (acr.find acv.accountTree.rootHash = toInt64 acv.accountTree.modulo →
      ∀ raw, acv.accountTree.leaf key = .ok raw →
        GetAccountValueRaw o bn addr key = (raw, none)) := by
  constructor
  · intro hne
    refine ⟨?_, fun α st => rfl⟩
    unfold GetAccountValueRaw
    simp only [hv, hr]
    simp [hne]
  · intro heq raw hleaf
    unfold GetAccountValueRaw
    simp only [hv, hr]
    simp [heq, hleaf]

/-- Witness for C1: the two concrete oracles exercise the mismatch and the
match branch. -/
theorem getAccountValueRaw_merkle_check_witness :
    GetAccountValueRaw avOracleMismatch 3 zeroAddress [1] =
      (NullData, some Err.wrongMerkleProof) ∧
    GetAccountValueRaw avOracleMatch 3 zeroAddress [1] = ([7], none) := by
  constructor
  · exact ((getAccountValueRaw_merkle_check avOracleMismatch 3 zeroAddress [1]
      ⟨⟨[9], 0, fun _ => .ok [7]⟩⟩ ⟨[[8]]⟩ rfl rfl).1 (by decide)).1
  · exact (getAccountValueRaw_merkle_check avOracleMatch 3 zeroAddress [1]
      ⟨⟨[9], 0, fun _ => .ok [7]⟩⟩ ⟨[[9]]⟩ rfl rfl).2 (by decide) [7] rfl

/-- Claim C5: `CheckTicket` submits a new ticket exactly when the channel's
`TotalBytes` strictly exceeds its `Counter` plus 4194304, and below the
threshold it returns `nil` and leaves the state unchanged. -/
theorem checkTicket_threshold (o : CheckOracle) (st : SSLState) :
    ((CheckTicket o st).submitted = true ↔
      st.totalBytes > st.counter + ticketBound) ∧
    (st.totalBytes ≤ st.counter + ticketBound →
      CheckTicket o st = ⟨none, st, false⟩) := by
  constructor
  · by_cases h : st.totalBytes > st.counter + ticketBound <;>
      simp [CheckTicket, h]
  · intro hle
    have h : ¬ st.totalBytes > st.counter + ticketBound := Nat.not_lt.mpr hle
    simp [CheckTicket, h]

/-- Witness for C5: a channel at the threshold does not submit. -/
theorem checkTicket_threshold_witness :
    CheckTicket ⟨fun s => (none, s)⟩ ⟨4194304, 0⟩ =
      ⟨none, ⟨4194304, 0⟩, false⟩ :=
  (checkTicket_threshold ⟨fun s => (none, s)⟩ ⟨4194304, 0⟩).2 (by decide)

/-- Claim C8: a `portopen` RPC failure carrying the server's 4-byte
`"time"` response (bytes 116, 105, 109, 101) makes `PortOpen` return a nil
result together with the port-open-timeout error. -/
theorem portOpen_time_timeout :
    PortOpen (.error [116, 105, 109, 101]) =
      (none, some Err.portOpenTimeout) := rfl

/-- Claim C9: `PortOpen` rewrites exactly the RPC errors whose message is 4
bytes long into the port-open-timeout error; messages of any other length
are passed through unchanged. -/
theorem portOpen_four_byte_rule (msg : Bytes) :
    (PortOpen (.error msg) = (none, some Err.portOpenTimeout) ↔
      msg.length = 4) ∧
    (msg.length ≠ 4 → PortOpen (.error msg) = (none, some (Err.rpc msg))) := by
  constructor
  · by_cases h : msg.length = 4 <;> simp [PortOpen, h]
  · intro h
    simp [PortOpen, h]

/-- Witness for C9: a 3-byte error message is passed through. -/
theorem portOpen_four_byte_rule_witness :
    PortOpen (.error [1, 2, 3]) = (none, some (Err.rpc [1, 2, 3])) :=
  (portOpen_four_byte_rule [1, 2, 3]).2 (by decide)

/-- Claim C10: `ResolveReverseBNS` panics (modelled as `none`) exactly on
verified values shorter than 2 bytes or shorter than the computed slice
bound (`size/2` for an even length tag, 30 for an odd one); under the length
precondition it returns the sliced value and the panic branch is
unreachable. -/
theorem resolveReverseBNS_length_precondition (o : AVOracle) (addr : Address)
    (raw : Bytes)
    (h : GetAccountValueRaw o 0 bnsAddr (bnsReverseEntryLocation addr) =
      (raw, none)) :
    (raw.length < 2 ∨ raw.length < reverseBNSBound raw →
      ResolveReverseBNS o addr = none) ∧
    (2 ≤ raw.length → reverseBNSBound raw ≤ raw.length →
      ResolveReverseBNS o addr = some (.ok (raw.take (reverseBNSBound raw)))) := by
  have hmain : ResolveReverseBNS o addr =
      (if raw.length < 2 then none
       else if bigEndian16 (raw.drop (raw.length - 2)) % 2 = 0 then
         (if bigEndian16 (raw.drop (raw.length - 2)) / 2 ≤ raw.length then
            some (.ok (raw.take (bigEndian16 (raw.drop (raw.length - 2)) / 2)))
          else none)
       else (if 30 ≤ raw.length then some (.ok (raw.take 30)) else none)) := by
    unfold ResolveReverseBNS
    simp only [h]
  rw [hmain]
  constructor
  · intro hlt
    by_cases h2 : raw.length < 2
    · simp [h2]
    · rcases hlt with hl2 | hb
      · exact absurd hl2 h2
      · rw [if_neg h2]
        unfold reverseBNSBound at hb
        by_cases he : bigEndian16 (raw.drop (raw.length - 2)) % 2 = 0
        · rw [if_pos he] at hb
          rw [if_pos he, if_neg (by omega)]
        · rw [if_neg he] at hb
          rw [if_neg he, if_neg (by omega)]
  · intro h2 hb
    unfold reverseBNSBound at hb ⊢
    rw [if_neg (by omega)]
    by_cases he : bigEndian16 (raw.drop (raw.length - 2)) % 2 = 0
    · rw [if_pos he] at hb
      rw [if_pos he, if_pos hb, if_pos he]
    · rw [if_neg he] at hb
      rw [if_neg he, if_pos hb, if_neg he]

/-- Witness for C10: a 1-byte value panics; a 4-byte value with even length
tag 4 yields its first two bytes. -/
theorem resolveReverseBNS_length_precondition_witness :
    ResolveReverseBNS c10oracleShort zeroAddress = none ∧
    ResolveReverseBNS c10oracleEven zeroAddress = some (.ok [97, 98]) := by
  constructor
  · exact (resolveReverseBNS_length_precondition c10oracleShort zeroAddress
      [1] rfl).1 (by decide)
  · exact (resolveReverseBNS_length_precondition c10oracleEven zeroAddress
      [97, 98, 0, 4] rfl).2 (by decide) (by decide)

/-- Claim C4: on a `TicketTooLow` response whose previous ticket carries a
device signature that validates (directly or after the forced re-decoding of
its local address), the client sets its counters to the returned
`TotalBytes + 1024` and `TotalConnections + 1` and re-submits exactly once;
a ticket whose signature never validates is ignored, and `TicketTooOld` is
only logged. -/
theorem submitTicket_tooLow_resync (o : TicketOracle) (st : ChanState)
    (t : LastTicket) (h : o.resp = .ok (some t)) :
    (t.code = .tooLow → (t.sigValid || t.sigValidForced) = true →
      submitTicket o st =
        ⟨(o.resubmit ⟨t.totalBytes + 1024, t.totalConnections + 1⟩).1.map
            (Err.wrap failedResubmitMsg),
          (o.resubmit ⟨t.totalBytes + 1024, t.totalConnections + 1⟩).2, 1⟩) ∧
    (t.code = .tooLow → t.sigValid = false → t.sigValidForced = false →
      submitTicket o st = ⟨none, st, 0⟩) ∧
    (t.code = .tooOld → submitTicket o st = ⟨none, st, 0⟩) := by
  unfold submitTicket
  simp only [h]
  refine ⟨?_, ?_, ?_⟩
  · intro hc hv
    rcases hr : o.resubmit ⟨t.totalBytes + 1024, t.totalConnections + 1⟩ with
      ⟨r1, r2⟩
    cases hsv : t.sigValid
    · have hsf : t.sigValidForced = true := by
        rw [hsv] at hv
        simpa using hv
      simp only [hc, hsv, hsf, hr]
      cases r1 <;> simp
    · simp only [hc, hsv, hr]
      cases r1 <;> simp
  · intro hc hsv hsf
    simp [hc, hsv, hsf]
  · intro hc
    simp [hc]

/-- Witness for C4: the concrete `TicketTooLow` response resynchronises the
counters to `5000 + 1024` bytes and `7 + 1` connections with one
re-submission. -/
theorem submitTicket_tooLow_resync_witness :
    submitTicket c4oracle ⟨0, 0⟩ = ⟨none, ⟨6024, 8⟩, 1⟩ :=
  (submitTicket_tooLow_resync c4oracle ⟨0, 0⟩ c4ticket rfl).1 rfl rfl

/-- Claim C6: once `Close` has run (`isClosed` is set and no operation
resets it), `insertCall` — and with it `CastContext`, `RespondContext` and
`CallContext` — returns the client-closed error, leaving the call manager
untouched. -/
theorem closed_client_rejects_calls (st st0 : RpcState) (c : RpcCall)
    (wait : Except Err Nat) (hc : st.isClosed = true) :
    insertCall st c = (some Err.clientClosed, st) ∧
    CastContext (.ok c) st = ((some c, some Err.clientClosed), st) ∧
    RespondContext (.ok c) st = ((some c, some Err.clientClosed), st) ∧
    CallContext (.ok c) wait st = ((none, some Err.clientClosed), st) ∧
    (Close st0).isClosed = true ∧
    (insertCall st0 c).2.isClosed = st0.isClosed := by
  have hins : insertCall st c = (some Err.clientClosed, st) := by
    unfold insertCall
    simp [hc]
  refine ⟨hins, ?_, ?_, ?_, ?_, ?_⟩
  · unfold CastContext
    simp [hins]
  · unfold RespondContext
    simp [hins]
  · unfold CallContext CastContext
    simp [hins]
  · unfold Close
    by_cases h0 : st0.isClosed = true <;> simp [h0]
  · unfold insertCall
    by_cases h0 : st0.isClosed = true
    · simp [h0]
    · simp only [h0, if_neg]
      cases hcm : cmInsert st0.cm c <;> simp [hcm, h0]

/-- Witness for C6: a closed client rejects a concrete `CallContext`. -/
theorem closed_client_rejects_calls_witness :
    CallContext (.ok ⟨1, [112]⟩) (.ok 0) ⟨true, []⟩ =
      ((none, some Err.clientClosed), ⟨true, []⟩) :=
  (closed_client_rejects_calls ⟨true, []⟩ ⟨false, []⟩ ⟨1, [112]⟩ (.ok 0)
    rfl).2.2.2.1

/-- Claim C2: when the fetched anchor window's tail hash differs from the
stored `lvbh`, `validateNetwork` deletes the stored anchor block-number
record and fails with the anchor-mismatch error, and `initialize` then
retries `validateNetwork` exactly once from the reset anchor, returning the
retry's outcome (also when that retry fails) without any further attempt. -/
theorem validateNetwork_anchor_reset {W : Type} (o1 o2 : VNOracle W)
    (st : VNState W) (hs : List BHeader)
    (hh : o1.headers = .ok hs) (hlen : hs.length = windowSize)
    (hne : (hs.getD (windowSize - 1) defaultHeader).hash ≠
      (restoreLastValid st).2) :
    validateNetwork o1 st =
      (.error (.anchorMismatch (restoreLastValid st).1),
        { st with dbLvbn := none }) ∧
    initValidate o1 o2 st = validateNetwork o2 { st with dbLvbn := none } := by
  have h1 : validateNetwork o1 st =
      (.error (.anchorMismatch (restoreLastValid st).1),
        { st with dbLvbn := none }) := by
    unfold validateNetwork
    simp only [hh]
    rw [if_neg (show ¬(hs.length ≠ windowSize) from by simp [hlen])]
    rw [if_pos hne]
  refine ⟨h1, ?_⟩
  unfold initValidate
  simp only [h1]
  simp [isAnchorMismatch]

/-- Witness for C2: the stored anchor hash is 5 but the fetched window tail
hashes to 4, so the pass resets the anchor record and the retry starts from
the reset state. -/
theorem validateNetwork_anchor_reset_witness :
    validateNetwork c2oracle c2state =
      (.error (.anchorMismatch 1), ⟨none, some 5, none⟩) ∧
    initValidate c2oracle c2oracle c2state =
      validateNetwork c2oracle ⟨none, some 5, none⟩ :=
  validateNetwork_anchor_reset c2oracle c2oracle c2state c2headers rfl rfl
    (by decide)

/-- The block-adding loop of `validateNetwork` processes exactly the longest
prefix of candidate blocks numbered at most `mx` (the loop breaks at the
first block above the bound). -/
theorem addLoop_eq_takeWhile {W : Type} (ops : WindowOps W) (mx : Nat) :
    ∀ (bs : List BHeader) (w : W),
      addLoop ops w bs mx =
        foldAdd ops w (bs.takeWhile (fun b => decide (b.number ≤ mx))) := by
  intro bs
  induction bs with
  | nil =>
    intro w
    rfl
  | cons b bs ih =>
    intro w
    by_cases hb : b.number > mx
    · have hdec : decide (b.number ≤ mx) = false := by
        simp only [decide_eq_false_iff_not]
        omega
      simp only [addLoop, if_pos hb, List.takeWhile_cons, hdec]
      rfl
    · have hdec : decide (b.number ≤ mx) = true := by
        simp only [decide_eq_true_eq]
        omega
      simp only [addLoop, if_neg hb, List.takeWhile_cons, hdec, if_true]
      cases hab : ops.addBlock w b
      · simp [foldAdd, hab]
      · simp [foldAdd, hab, ih]

/-- Claim C3: after the anchor window is verified, the candidate blocks are
added in order up to `peak - C + 1`; the pass fails with the no-progress
error exactly when the new `Last()` number equals the old `lvbn` while
`peak - W > lvbn`, and otherwise the new window is installed and the new
anchor persisted. -/
theorem validateNetwork_progress {W : Type} (o : VNOracle W) (st : VNState W)
    (hs blks : List BHeader) (peak : Nat) (win0 win : W)
    (hh : o.headers = .ok hs) (hlen : hs.length = windowSize)
    (hhash : (hs.getD (windowSize - 1) defaultHeader).hash =
      (restoreLastValid st).2)
    (hchain : chainCheck hs = none)
    (hp : o.peak = .ok peak) (hpklo : windowSize ≤ peak)
    (hpkhi : peak < 2 ^ 64)
    (hb : o.blocks = .ok blks)
    (hw : o.ops.newWindow hs = .ok win0)
    (hadd : addLoop o.ops win0 blks (u64 (u64sub peak confirmationSize + 1)) =
      .ok win) :
    (addLoop o.ops win0 blks (u64 (u64sub peak confirmationSize + 1)) =
      foldAdd o.ops win0
        (blks.takeWhile
          (fun b => decide (b.number ≤ u64 (u64sub peak confirmationSize + 1))))) ∧
    (validateNetwork o st = (.error .noProgress, st) ↔
      ((o.ops.last win).1 = (restoreLastValid st).1 ∧
        peak - windowSize > (restoreLastValid st).1)) ∧
    (¬ ((o.ops.last win).1 = (restoreLastValid st).1 ∧
        peak - windowSize > (restoreLastValid st).1) →
      validateNetwork o st =
        (.ok (), ⟨some (o.ops.last win).1, some (o.ops.last win).2,
          some win⟩)) := by
  have hpklo1 : 100 ≤ peak := hpklo
  have hsub : u64sub peak windowSize = peak - windowSize := by
    simp only [u64sub, u64, windowSize]
    omega
  have hmain : validateNetwork o st =
      if (o.ops.last win).1 = (restoreLastValid st).1 ∧
          peak - windowSize > (restoreLastValid st).1 then
        (.error .noProgress, st)
      else
        (.ok (), ⟨some (o.ops.last win).1, some (o.ops.last win).2,
          some win⟩) := by
    unfold validateNetwork
    simp only [hh]
    rw [if_neg (show ¬(hs.length ≠ windowSize) from by simp [hlen])]
    rw [if_neg (show ¬((hs.getD (windowSize - 1) defaultHeader).hash ≠
      (restoreLastValid st).2) from by simpa using hhash)]
    simp only [hchain, hp, hb, hw, hadd, hsub]
  refine ⟨addLoop_eq_takeWhile o.ops _ blks win0, ?_, ?_⟩
  · rw [hmain]
    by_cases hcond : (o.ops.last win).1 = (restoreLastValid st).1 ∧
        peak - windowSize > (restoreLastValid st).1
    · simp [hcond]
    · simp [hcond]
  · intro hcond
    rw [hmain, if_neg hcond]

/-- Witness for C3: with anchor `(1, 5)`, peak 120 and one candidate block
numbered 2, the pass adds the block, moves `Last()` to 8 and installs the
window with the persisted anchor `(8, 9)`. -/
theorem validateNetwork_progress_witness :
    validateNetwork c3oracle c3state = (.ok (), ⟨some 8, some 9, some 1⟩) :=
  (validateNetwork_progress c3oracle c3state c3headers [⟨2, 0, 0, true⟩] 120 0 1
    rfl rfl rfl (by decide) rfl (by decide) (by decide) rfl rfl rfl).2.2
    (by decide)

/-- The element loop of `ResolveBNS` collects, in index order, the last 20
bytes of each (32-byte) element slot when every element read succeeds. -/
theorem bnsLoop_all_ok (o : AVOracle) (name : Bytes) (elemRaw : Nat → Bytes) :
    ∀ (is : List Nat) (acc : List Address),
      (∀ i ∈ is, GetAccountValueRaw o 0 bnsAddr
          (bnsDestinationArrayElementLocation name i) = (elemRaw i, none) ∧
          (elemRaw i).length = 32) →
      bnsLoop o name acc is =
        some (acc ++ is.map fun i => (elemRaw i).drop 12) := by
  intro is
  induction is with
  | nil =>
    intro acc _
    simp [bnsLoop]
  | cons i is ih =>
    intro acc h
    obtain ⟨hread, h32⟩ := h i (List.mem_cons_self i is)
    have hslot : addrFromSlot (elemRaw i) = some ((elemRaw i).drop 12) := by
      unfold addrFromSlot
      rw [if_neg (by omega)]
      have ht : ((elemRaw i).drop 12).take 20 = (elemRaw i).drop 12 := by
        apply List.take_of_length_le
        rw [List.length_drop]
        omega
      have h20 : ((elemRaw i).drop 12).length = 20 := by
        rw [List.length_drop]
        omega
      simp only [ht, h20]
      simp
    simp only [bnsLoop, hread, hslot]
    rw [ih (acc ++ [(elemRaw i).drop 12])
      (fun j hj => h j (List.mem_cons_of_mem i hj))]
    simp

/-- Claim C7: a destination-array length above 128 makes `ResolveBNS` skip
the multi-address resolution entirely (it behaves as the single-entry
fallback); lengths from 1 to 128 are resolved by reading each element slot
in index order and returning the addresses in that order. -/
theorem resolveBNS_array_limit (o : AVOracle) (name : Bytes) (lenRaw : Bytes)
    (elemRaw : Nat → Bytes)
    (hlen : GetAccountValueRaw o 0 bnsAddr (bnsDestinationArrayLocation name) =
      (lenRaw, none)) :
    (128 < toInt64 (natFromBytes lenRaw) →
      ResolveBNS o name = resolveBNSFallback o name) ∧
    (∀ n : Nat, 1 ≤ n → n ≤ 128 → toInt64 (natFromBytes lenRaw) = (n : Int) →
      (∀ i, i < n → GetAccountValueRaw o 0 bnsAddr
          (bnsDestinationArrayElementLocation name i) = (elemRaw i, none) ∧
          (elemRaw i).length = 32) →
      ResolveBNS o name =
        some (.ok ((List.range n).map fun i => (elemRaw i).drop 12))) := by
  have hsize : GetAccountValueInt o 0 bnsAddr
      (bnsDestinationArrayLocation name) = natFromBytes lenRaw := by
    unfold GetAccountValueInt
    rw [hlen]
  constructor
  · intro h128
    unfold ResolveBNS
    simp only [hsize]
    rw [if_pos h128]
    simp
  · intro n h1 h128 heq hreads
    unfold ResolveBNS
    simp only [hsize, heq]
    rw [if_neg (by omega)]
    rw [if_neg (by omega)]
    have hrange : ((n : Int)).toNat = n := Int.toNat_natCast n
    rw [hrange]
    rw [bnsLoop_all_ok o name elemRaw (List.range n) []
      (fun i hi => hreads i (List.mem_range.mp hi))]
    have hne : (List.range n).map (fun i => (elemRaw i).drop 12) ≠ [] := by
      intro hcontra
      have : (List.range n).length = 0 := by
        simpa using congrArg List.length hcontra
      simp at this
      omega
    simp [hne]

/-- Witness for C7: a length slot reading 200 falls back to the single-entry
branch; the two-element witness table resolves to the two addresses in
order. -/
theorem resolveBNS_array_limit_witness :
    ResolveBNS c7oracleBig c7name = resolveBNSFallback c7oracleBig c7name ∧
    ResolveBNS c7oracle c7name =
      some (.ok [List.replicate 20 170, List.replicate 20 187]) := by
  constructor
  · exact (resolveBNS_array_limit c7oracleBig c7name [200] (fun _ => [])
      rfl).1 (by decide)
  · exact (resolveBNS_array_limit c7oracle c7name [2]
      (fun i => c7table (bnsDestinationArrayElementLocation c7name i))
      rfl).2 2 (by omega) (by omega) (by decide)
      (fun i hi => by interval_cases i <;> exact ⟨rfl, rfl⟩)

end Diode
